import Mathlib

/-!
Shallow embedding of the lead-import subsystem of the pathsix-crm
frontend (the `LeadImporter` React component).  The definitions below
translate, as directly as Lean allows, the pure computational core of
that component: the field schema registry (`leadFields`), the header
normalization and rule-chain inference performed inside
`handleFileChange`, the mapping validator (`validateMappings`), the
mapping editor (`updateMapping`), the file-extension gate of
`handleFileChange`, and the control flow of `handleImport`.
Stateful React handlers are modelled as explicit functions from their
input state to a record of the observable effects (error set, file
kept or cleared, network request issued or not).
JavaScript strings are modelled as Lean strings; `toLowerCase` is
modelled on its ASCII behaviour, which is the range the inference rules
and extension checks operate on.
-/

namespace LeadImporter

/-- One column mapping row: the source spreadsheet column name and the
chosen target lead field (empty string = skip this column). -/
structure ColumnMapping where
  csvColumn : String
  leadField : String
deriving Repr, DecidableEq

/-- One entry of the field schema registry: field name, whether it is
required, and the human-facing description and example. -/
structure ValidationInfo where
  field : String
  required : Bool
  description : String
  «example» : Option String
deriving Repr, DecidableEq

/-- The preview payload returned by the preview endpoint. -/
structure PreviewData where
  headers : List String
  rows : List (List String)
  totalRows : Nat
deriving Repr

/-- The field schema registry: the `leadFields` array of the component,
entry for entry. -/
def leadFields : List ValidationInfo :=
  [ ⟨"name", true, "Company/Organization name", some "Acme Corporation"⟩,
    ⟨"contact_person", false, "Primary contact person name", some "John Smith"⟩,
    ⟨"contact_title", false, "Contact person job title", some "Operations Manager"⟩,
    ⟨"email", false, "Primary email address", some "john@acme.com"⟩,
    ⟨"phone", false, "Primary phone number", some "(555) 123-4567"⟩,
    ⟨"phone_label", false, "Phone type (work, mobile, home)", some "work"⟩,
    ⟨"secondary_phone", false, "Secondary phone number", some "(555) 987-6543"⟩,
    ⟨"secondary_phone_label", false, "Secondary phone type", some "mobile"⟩,
    ⟨"address", false, "Street address", some "123 Main St"⟩,
    ⟨"city", false, "City name", some "Houston"⟩,
    ⟨"state", false, "State/Province", some "TX"⟩,
    ⟨"zip", false, "ZIP/Postal code", some "77001"⟩,
    ⟨"notes", false, "Additional information", some "Potential customer from trade show"⟩,
    ⟨"type", false, "Business type (Oil & Gas, Secondary Containment, etc.)", some "Oil & Gas"⟩,
    ⟨"lead_status", false, "Lead status (open, qualified, proposal, closed)", some "open"⟩ ]

/-- A character kept by the normalization regex `[^a-z0-9]` after
lower-casing: a lower-case ASCII letter or a digit. -/
def isLowerAlnum (c : Char) : Bool :=
  (('a' : Char) ≤ c && c ≤ ('z' : Char)) || (('0' : Char) ≤ c && c ≤ ('9' : Char))

/-- JavaScript `toLowerCase` modelled on its ASCII behaviour, applied
character by character. -/
def jsToLower (s : String) : String :=
  String.mk (s.data.map Char.toLower)

/-- `header.toLowerCase().replace(/[^a-z0-9]/g, "")` from
`handleFileChange`: lower-case, then keep only lower-case
alphanumerics. -/
def normalizedHeader (h : String) : String :=
  String.mk (((jsToLower h).data).filter isLowerAlnum)

/-- `startsWithSub s pat` is true when `pat` is an initial segment of
`s`. -/
def startsWithSub : List Char → List Char → Bool
  | _, [] => true
  | [], _ :: _ => false
  | a :: as, b :: bs => a = b && startsWithSub as bs

/-- `hasSub s pat` is true when `pat` occurs contiguously inside `s`. -/
def hasSub : List Char → List Char → Bool
  | [], pat => pat.isEmpty
  | a :: rest, pat => startsWithSub (a :: rest) pat || hasSub rest pat

/-- JavaScript `s.includes(pat)` on strings. -/
def strIncludes (s pat : String) : Bool :=
  hasSub s.data pat.data

/-- The inline rule chain of `handleFileChange` that proposes a target
field (the `suggestedField` computation), as a function of the
normalized header `n`. -/
def inferFieldOfNormalized (n : String) : String :=
  if strIncludes n "name" || strIncludes n "company" || strIncludes n "plant" then
    "name"
  else if strIncludes n "contact" && (strIncludes n "person" || strIncludes n "name") then
    "contact_person"
  else if strIncludes n "title" then
    "contact_title"
  else if strIncludes n "email" then
    "email"
  else if strIncludes n "phone" && !strIncludes n "secondary" then
    "phone"
  else if strIncludes n "phone" && strIncludes n "secondary" then
    "secondary_phone"
  else if strIncludes n "address" then
    "address"
  else if strIncludes n "city" then
    "city"
  else if strIncludes n "state" then
    "state"
  else if strIncludes n "zip" || strIncludes n "postal" then
    "zip"
  else if strIncludes n "note" || strIncludes n "desc" then
    "notes"
  else if strIncludes n "type" || strIncludes n "industry" then
    "type"
  else if strIncludes n "status" then
    "lead_status"
  else
    ""

/-- The proposed target field for one header: the rule chain applied
to the normalized header. -/
def inferField (header : String) : String :=
  inferFieldOfNormalized (normalizedHeader header)

/-- The `initialMappings` computation of `handleFileChange`: one
`ColumnMapping` per preview header, source column kept verbatim, target
field proposed by the rule chain. -/
def inferMappings (headers : List String) : List ColumnMapping :=
  headers.map (fun header => ⟨header, inferField header⟩)

/-- True when the normalized header satisfies at least one condition of
the rule chain. -/
def matchesSomeRule (header : String) : Bool :=
  let n := normalizedHeader header
  strIncludes n "name" || strIncludes n "company" || strIncludes n "plant" ||
  (strIncludes n "contact" && (strIncludes n "person" || strIncludes n "name")) ||
  strIncludes n "title" ||
  strIncludes n "email" ||
  (strIncludes n "phone" && !strIncludes n "secondary") ||
  (strIncludes n "phone" && strIncludes n "secondary") ||
  strIncludes n "address" ||
  strIncludes n "city" ||
  strIncludes n "state" ||
  strIncludes n "zip" || strIncludes n "postal" ||
  strIncludes n "note" || strIncludes n "desc" ||
  strIncludes n "type" || strIncludes n "industry" ||
  strIncludes n "status"

/-- True when one of the four rule-chain branches tested before the two
phone branches fires on the normalized header. -/
def higherRuleFires (header : String) : Bool :=
  let n := normalizedHeader header
  strIncludes n "name" || strIncludes n "company" || strIncludes n "plant" ||
  (strIncludes n "contact" && (strIncludes n "person" || strIncludes n "name")) ||
  strIncludes n "title" ||
  strIncludes n "email"

/-- `updateMapping(csvColumn, leadField)`: rewrite the target field of
every entry whose source column equals `csvColumn`, leave the rest
untouched. -/
def updateMapping (csvColumn leadField : String)
    (mappings : List ColumnMapping) : List ColumnMapping :=
  mappings.map (fun mapping =>
    if mapping.csvColumn = csvColumn then
      { mapping with leadField := leadField }
    else
      mapping)

/-- The names of the required registry fields
(`leadFields.filter(f => f.required).map(f => f.field)`). -/
def requiredFieldNames : List String :=
  (leadFields.filter (fun f => f.required)).map (fun f => f.field)

/-- The target fields that have some source column mapped to them
(`columnMappings.filter(m => m.leadField).map(m => m.leadField)`);
the JavaScript truthiness test keeps exactly the non-empty strings. -/
def mappedFieldNames (mappings : List ColumnMapping) : List String :=
  (mappings.filter (fun m => m.leadField ≠ "")).map (fun m => m.leadField)

/-- The required field names with no source column mapped to them. -/
def missingRequired (mappings : List ColumnMapping) : List String :=
  requiredFieldNames.filter (fun f => !(mappedFieldNames mappings).contains f)

/-- `validateMappings`: when required fields are missing it pushes one
joined message onto the error list, otherwise the list stays empty. -/
def validateMappings (mappings : List ColumnMapping) : List String :=
  if (missingRequired mappings).length > 0 then
    ["Missing required fields: " ++ String.intercalate ", " (missingRequired mappings)]
  else
    []

/-- JavaScript `name.lastIndexOf(c)`: the index of the last occurrence
of `c`, or `-1` when absent. -/
def lastIndexOf (c : Char) : List Char → Int
  | [] => -1
  | a :: rest =>
    let r := lastIndexOf c rest
    if r ≥ 0 then r + 1 else if a = c then 0 else -1

/-- JavaScript `s.slice(i)` for a single argument: a negative `i`
counts from the end, clamped at the ends of the string. -/
def jsSliceFrom (s : List Char) (i : Int) : List Char :=
  if i < 0 then s.drop (max 0 ((s.length : Int) + i)).toNat
  else s.drop (min i (s.length : Int)).toNat

/-- `selectedFile.name.toLowerCase().slice(selectedFile.name.lastIndexOf("."))`
from `handleFileChange`. -/
def fileExtension (name : String) : String :=
  String.mk (jsSliceFrom ((jsToLower name).data) (lastIndexOf '.' name.data))

/-- The accepted extensions (`validTypes`). -/
def validTypes : List String := [".csv", ".xlsx"]

/-- Observable outcome of one run of `handleFileChange`: the error text
(empty = cleared), whether the selected file is kept, whether the
preview request was sent, the resulting column mappings and the step
the wizard moves to. -/
structure FileChangeResult where
  error : String
  fileKept : Bool
  previewRequested : Bool
  mappings : List ColumnMapping
  movedToMapping : Bool
deriving Repr, DecidableEq

/-- `handleFileChange` on a selected file, with the network interaction
abstracted: `previewOk` says whether the preview endpoint answered
successfully and `preview` is its payload.  An invalid extension sets
the error and clears the file before any request is made; a failed
preview clears the file in the catch block; a successful preview
installs the inferred mappings and moves to the mapping step. -/
def handleFileChange (fileName : String) (previewOk : Bool)
    (preview : PreviewData) : FileChangeResult :=
  if !(validTypes.contains (fileExtension fileName)) then
    { error := "Please upload a CSV or Excel (.xlsx) file",
      fileKept := false, previewRequested := false,
      mappings := [], movedToMapping := false }
  else if !previewOk then
    { error := "Failed to process file",
      fileKept := false, previewRequested := true,
      mappings := [], movedToMapping := false }
  else
    { error := "", fileKept := true, previewRequested := true,
      mappings := inferMappings preview.headers, movedToMapping := true }

/-- The component state that `handleImport` reads. -/
structure ImportState where
  file : Option String
  selectedUser : String
  columnMappings : List ColumnMapping
deriving Repr

/-- Observable outcome of the synchronous part of `handleImport`
before any network interaction: the error it sets (if any) and whether
the import request to the generic-import endpoint was issued. -/
structure ImportAction where
  errorSet : Option String
  importRequested : Bool
deriving Repr, DecidableEq

/-- The guard logic of `handleImport`: missing file or user stops with
an error; a non-empty validation result stops with the joined errors;
otherwise the import request is issued. -/
def handleImport (s : ImportState) : ImportAction :=
  if s.file.isNone || s.selectedUser = "" then
    ⟨some "Please select a file and user", false⟩
  else if (validateMappings s.columnMappings).length > 0 then
    ⟨some (String.intercalate ". " (validateMappings s.columnMappings)), false⟩
  else
    ⟨none, true⟩

/-! ## Claims -/

/-- A field name is listed by `mappedFieldNames` exactly when some
mapping entry targets it (for a non-empty field name). -/
theorem mappedFieldNames_mem (mappings : List ColumnMapping)
    (f : String) (hf : f ≠ "") :
    f ∈ mappedFieldNames mappings ↔
      ∃ m ∈ mappings, m.leadField = f := by
  simp only [mappedFieldNames, List.mem_map, List.mem_filter]
  constructor
  · rintro ⟨m, ⟨hm, _⟩, hl⟩
    exact ⟨m, hm, hl⟩
  · rintro ⟨m, hm, hl⟩
    refine ⟨m, ⟨hm, ?_⟩, hl⟩
    simpa [hl] using hf

/-- `missingRequired` computed for the concrete registry, in which the
single required field is `name`. -/
theorem missingRequired_eq (mappings : List ColumnMapping) :
    missingRequired mappings =
      if "name" ∈ mappedFieldNames mappings then []
      else ["name"] := by
  rw [missingRequired, show requiredFieldNames = ["name"] from rfl]
  by_cases hc : "name" ∈ mappedFieldNames mappings
  · simp [hc]
  · simp [hc]

/-- C1, counterexample: the registry requires exactly the field `name`,
the empty mapping maps no column to it, yet the validator output does
not contain `name` as an element — it contains one joined message. -/
theorem C1_counterexample :
    requiredFieldNames = ["name"] ∧
    validateMappings [] = ["Missing required fields: name"] ∧
    ¬ ("name" ∈ validateMappings []) := by
  decide

/-- C1, amended: the validator returns the empty list exactly when
every required registry field has at least one source column mapped to
it, and when a required field is unmapped the returned (single-element)
list carries a message that contains that field name as a substring,
rather than the field name as a list element. -/
theorem validateMappings_characterization (mappings : List ColumnMapping) :
    (validateMappings mappings = [] ↔
       ∀ f ∈ requiredFieldNames, ∃ m ∈ mappings, m.leadField = f) ∧
    (∀ f ∈ requiredFieldNames, (∀ m ∈ mappings, m.leadField ≠ f) →
       ∃ msg ∈ validateMappings mappings, hasSub msg.data f.data = true) := by
  have hkey := mappedFieldNames_mem mappings "name" (by decide)
  by_cases hc : "name" ∈ mappedFieldNames mappings
  · have hv : validateMappings mappings = [] := by
      simp [validateMappings, missingRequired_eq, hc]
    constructor
    · rw [hv, show requiredFieldNames = ["name"] from rfl]
      simp only [List.mem_singleton, forall_eq, true_iff]
      exact hkey.mp hc
    · intro f hf hun
      rw [show requiredFieldNames = ["name"] from rfl] at hf
      simp only [List.mem_singleton] at hf
      subst hf
      obtain ⟨m, hm, hl⟩ := hkey.mp hc
      exact absurd hl (hun m hm)
  · have hv : validateMappings mappings =
        ["Missing required fields: " ++ String.intercalate ", " ["name"]] := by
      simp [validateMappings, missingRequired_eq, hc]
    constructor
    · rw [hv, show requiredFieldNames = ["name"] from rfl]
      simp only [List.mem_singleton, forall_eq]
      constructor
      · intro h
        exact absurd h (by simp)
      · intro hR
        exact absurd (hkey.mpr hR) hc
    · intro f hf hun
      rw [show requiredFieldNames = ["name"] from rfl] at hf
      simp only [List.mem_singleton] at hf
      subst hf
      refine ⟨"Missing required fields: " ++ String.intercalate ", " ["name"],
        by rw [hv]; exact List.mem_singleton_self _, ?_⟩
      decide

/-- C1, witness for the amended claim at a concrete input: the empty
mapping lacks the required field `name` and the validator output has a
message containing it. -/
theorem validateMappings_characterization_witness :
    ∃ msg ∈ validateMappings [], hasSub msg.data "name".data = true :=
  (validateMappings_characterization []).2 "name" (by decide) (by decide)

/-- C2, counterexample: the header `Company Secondary Phone`
normalizes to a string containing both `phone` and `secondary`, yet
inference proposes `name`, not `secondary_phone`, because the
company-name rule is tested first. -/
theorem C2_counterexample :
    strIncludes (normalizedHeader "Company Secondary Phone") "phone" = true ∧
    strIncludes (normalizedHeader "Company Secondary Phone") "secondary" = true ∧
    inferField "Company Secondary Phone" = "name" ∧
    inferField "Company Secondary Phone" ≠ "secondary_phone" := by
  decide

/-- C2, amended: a normalized header containing `company` or `plant`
is always mapped to `name`; when none of the four branches tested
before the phone branches fires (no `name`, `company`, `plant`,
`contact` with `person` or `name`, `title`, `email` occurrence), a
header containing both `phone` and `secondary` is mapped to
`secondary_phone` and one containing `phone` without `secondary` is
mapped to `phone` — in particular the generic phone branch, though
tested first, never captures a secondary-phone header. -/
theorem inferField_phone_rules (h : String) :
    ((strIncludes (normalizedHeader h) "company" = true ∨
      strIncludes (normalizedHeader h) "plant" = true) →
       inferField h = "name") ∧
    (higherRuleFires h = false →
       strIncludes (normalizedHeader h) "phone" = true →
       strIncludes (normalizedHeader h) "secondary" = true →
       inferField h = "secondary_phone") ∧
    (higherRuleFires h = false →
       strIncludes (normalizedHeader h) "phone" = true →
       strIncludes (normalizedHeader h) "secondary" = false →
       inferField h = "phone") := by
  refine ⟨?_, ?_, ?_⟩
  · rintro (hc | hp)
    · simp [inferField, inferFieldOfNormalized, hc]
    · simp [inferField, inferFieldOfNormalized, hp]
  · intro hhigh hp hs
    simp only [higherRuleFires, Bool.or_eq_false_iff] at hhigh
    obtain ⟨⟨⟨⟨⟨h1, h2⟩, h3⟩, h4⟩, h5⟩, h6⟩ := hhigh
    simp only [h1, Bool.or_false, Bool.and_eq_false_iff] at h4
    rcases h4 with h4 | h4 <;>
      simp [inferField, inferFieldOfNormalized, h1, h2, h3, h4, h5, h6, hp, hs]
  · intro hhigh hp hs
    simp only [higherRuleFires, Bool.or_eq_false_iff] at hhigh
    obtain ⟨⟨⟨⟨⟨h1, h2⟩, h3⟩, h4⟩, h5⟩, h6⟩ := hhigh
    simp only [h1, Bool.or_false, Bool.and_eq_false_iff] at h4
    rcases h4 with h4 | h4 <;>
      simp [inferField, inferFieldOfNormalized, h1, h2, h3, h4, h5, h6, hp, hs]

/-- C2, witness: the amended rules evaluated at concrete headers. -/
theorem inferField_phone_rules_witness :
    inferField "Plant Location" = "name" ∧
    inferField "Secondary Phone" = "secondary_phone" ∧
    inferField "Work Phone" = "phone" :=
  ⟨(inferField_phone_rules "Plant Location").1 (Or.inr (by decide)),
   (inferField_phone_rules "Secondary Phone").2.1 (by decide) (by decide) (by decide),
   (inferField_phone_rules "Work Phone").2.2 (by decide) (by decide) (by decide)⟩

/-- C3: mapping inference is total and structure-preserving — it is a
Lean function (so it cannot fail or throw), it yields one entry per
input header, and the entry at every position carries that position's
header verbatim as its source column. -/
theorem inferMappings_total (headers : List String) :
    (inferMappings headers).length = headers.length ∧
    ∀ i : Nat, ((inferMappings headers).get? i).map ColumnMapping.csvColumn
      = headers.get? i := by
  refine ⟨by simp [inferMappings], ?_⟩
  intro i
  rw [inferMappings, List.get?_map]
  cases headers.get? i <;> rfl

/-- C6: a header on which no rule-chain condition holds still yields a
mapping entry — at its own position — whose target field is empty. -/
theorem inferMappings_unmatched (headers : List String) (h : String)
    (i : Nat) (hget : headers.get? i = some h)
    (hnone : matchesSomeRule h = false) :
    (inferMappings headers).get? i = some ⟨h, ""⟩ := by
  have hempty : inferField h = "" := by
    simp only [matchesSomeRule, Bool.or_eq_false_iff] at hnone
    obtain ⟨⟨⟨⟨⟨⟨⟨⟨⟨⟨⟨⟨⟨⟨⟨⟨⟨h1, h2⟩, h3⟩, h4⟩, h5⟩, h6⟩, h7⟩, h8⟩,
      h9⟩, h10⟩, h11⟩, h12⟩, h13⟩, h14⟩, h15⟩, h16⟩, h17⟩, h18⟩ := hnone
    simp only [h1, Bool.or_false, Bool.and_eq_false_iff] at h4
    rcases h4 with h4 | h4 <;>
      simp [inferField, inferFieldOfNormalized, h1, h2, h3, h4, h5, h6, h7, h8,
        h9, h10, h11, h12, h13, h14, h15, h16, h17, h18]
  rw [inferMappings, List.get?_map, hget]
  simp [hempty]

/-- C6, witness: the header `zzz` matches no rule and is mapped to an
entry with an empty target field. -/
theorem inferMappings_unmatched_witness :
    (inferMappings ["zzz"]).get? 0 = some ⟨"zzz", ""⟩ :=
  inferMappings_unmatched ["zzz"] "zzz" 0 (by decide) (by decide)

/-- C4: whenever the mapping validator reports a non-empty result,
`handleImport` sets an error and never issues the import request, so no
persistence call can happen while a required-field mapping is
missing. -/
theorem handleImport_blocked (s : ImportState)
    (hval : validateMappings s.columnMappings ≠ []) :
    (handleImport s).importRequested = false ∧
    (handleImport s).errorSet.isSome = true := by
  rw [handleImport]
  split
  · exact ⟨rfl, rfl⟩
  · split
    · exact ⟨rfl, rfl⟩
    · rename_i hlen
      exact absurd (List.length_eq_zero.mp (Nat.eq_zero_of_not_pos
        (by simpa using hlen))) hval

/-- C4, witness: a state with a file and a user but no mapping for the
required `name` field never reaches the import request. -/
theorem handleImport_blocked_witness :
    (handleImport ⟨some "leads.csv", "user@example.com", []⟩).importRequested = false ∧
    (handleImport ⟨some "leads.csv", "user@example.com", []⟩).errorSet.isSome = true :=
  handleImport_blocked ⟨some "leads.csv", "user@example.com", []⟩ (by decide)

/-- C5: a selected file whose lower-cased extension is neither `.csv`
nor `.xlsx` makes `handleFileChange` report the unsupported-format
error, clear the selected file, and return before the preview request
is sent. -/
theorem handleFileChange_rejects (fileName : String) (previewOk : Bool)
    (preview : PreviewData)
    (hcsv : fileExtension fileName ≠ ".csv")
    (hxlsx : fileExtension fileName ≠ ".xlsx") :
    (handleFileChange fileName previewOk preview).error
        = "Please upload a CSV or Excel (.xlsx) file" ∧
    (handleFileChange fileName previewOk preview).fileKept = false ∧
    (handleFileChange fileName previewOk preview).previewRequested = false := by
  have hnot : validTypes.contains (fileExtension fileName) = false := by
    rw [show validTypes.contains (fileExtension fileName)
          = List.elem (fileExtension fileName) validTypes from rfl]
    rw [Bool.eq_false_iff]
    intro hmem
    have hm := List.elem_iff.mp hmem
    simp only [validTypes, List.mem_cons, List.not_mem_nil, or_false] at hm
    rcases hm with h | h
    · exact hcsv h
    · exact hxlsx h
  rw [handleFileChange, hnot]
  exact ⟨rfl, rfl, rfl⟩

/-- C5, witness: a `.pdf` file is rejected before any preview
request. -/
theorem handleFileChange_rejects_witness :
    (handleFileChange "leads.pdf" true ⟨[], [], 0⟩).error
        = "Please upload a CSV or Excel (.xlsx) file" ∧
    (handleFileChange "leads.pdf" true ⟨[], [], 0⟩).fileKept = false ∧
    (handleFileChange "leads.pdf" true ⟨[], [], 0⟩).previewRequested = false :=
  handleFileChange_rejects "leads.pdf" true ⟨[], [], 0⟩ (by decide) (by decide)

/-- Characters kept by the normalization filter are already
lower-case: `Char.toLower` fixes them. -/
theorem toLower_fix_of_isLowerAlnum (c : Char) (hc : isLowerAlnum c = true) :
    Char.toLower c = c := by
  have hrange : 97 ≤ c.toNat ∧ c.toNat ≤ 122 ∨ 48 ≤ c.toNat ∧ c.toNat ≤ 57 := by
    simp only [isLowerAlnum, Bool.or_eq_true, Bool.and_eq_true,
      decide_eq_true_eq] at hc
    rcases hc with ⟨h1, h2⟩ | ⟨h1, h2⟩
    · exact Or.inl ⟨by rw [Char.le_def] at h1; exact h1,
        by rw [Char.le_def] at h2; exact h2⟩
    · exact Or.inr ⟨by rw [Char.le_def] at h1; exact h1,
        by rw [Char.le_def] at h2; exact h2⟩
  have hno : ¬ (c.toNat ≥ 65 ∧ c.toNat ≤ 90) := by omega
  unfold Char.toLower
  simp [hno]

/-- C7: normalization is exactly lower-casing followed by stripping
every non-alphanumeric character, it is idempotent, and all rule
matching happens on the normalized form — two headers with the same
normalized form are inferred identically. -/
theorem normalization_spec (h h' : String) :
    (normalizedHeader h).data
        = (h.data.map Char.toLower).filter isLowerAlnum ∧
    normalizedHeader (normalizedHeader h) = normalizedHeader h ∧
    (normalizedHeader h = normalizedHeader h' →
        inferField h = inferField h') := by
  refine ⟨rfl, ?_, ?_⟩
  · have hall : ∀ c ∈ (normalizedHeader h).data, isLowerAlnum c = true := by
      intro c hcmem
      exact (List.mem_filter.mp hcmem).2
    have hmap : (normalizedHeader h).data.map Char.toLower
        = (normalizedHeader h).data := by
      rw [List.map_congr_left (fun c hc => toLower_fix_of_isLowerAlnum c (hall c hc))]
      exact List.map_id _
    have hfilt : (normalizedHeader h).data.filter isLowerAlnum
        = (normalizedHeader h).data := List.filter_eq_self.mpr hall
    show String.mk (((normalizedHeader h).data.map Char.toLower).filter isLowerAlnum)
        = normalizedHeader h
    rw [hmap, hfilt]
  · intro heq
    unfold inferField
    rw [heq]

/-- C7, witness: punctuation and casing do not change the inferred
field. -/
theorem normalization_spec_witness :
    inferField "Contact Person!! 42" = inferField "CONTACT, PERSON, 42" :=
  (normalization_spec "Contact Person!! 42" "CONTACT, PERSON, 42").2.2 (by decide)

/-- C8: inference is deterministic — the entry produced for a header
depends only on the header text, not on its position or on the other
headers, so two evaluations over any two surrounding contexts agree. -/
theorem inference_deterministic (pre post pre' post' : List String)
    (h : String) :
    (inferMappings (pre ++ h :: post)).get? pre.length
        = some ⟨h, inferField h⟩ ∧
    (inferMappings (pre ++ h :: post)).get? pre.length
        = (inferMappings (pre' ++ h :: post')).get? pre'.length := by
  have key : ∀ (p q : List String),
      (inferMappings (p ++ h :: q)).get? p.length = some ⟨h, inferField h⟩ := by
    intro p q
    have hg : (p ++ h :: q).get? p.length = some h := by
      rw [List.get?_append_right (Nat.le_refl _)]
      simp
    rw [inferMappings, List.get?_map, hg]
    rfl
  exact ⟨key pre post, by rw [key pre post, key pre' post']⟩

/-- Every value of the rule chain is the empty string or a registry
field name. -/
theorem inferFieldOfNormalized_range (n : String) :
    inferFieldOfNormalized n = "" ∨
      inferFieldOfNormalized n ∈ leadFields.map ValidationInfo.field := by
  delta inferFieldOfNormalized
  by_cases h1 : (strIncludes n "name" || strIncludes n "company" || strIncludes n "plant") = true
  · rw [if_pos h1]
    exact Or.inr (by decide)
  · rw [if_neg h1]
    by_cases h2 : (strIncludes n "contact" && (strIncludes n "person" || strIncludes n "name")) = true
    · rw [if_pos h2]
      exact Or.inr (by decide)
    · rw [if_neg h2]
      by_cases h3 : strIncludes n "title" = true
      · rw [if_pos h3]
        exact Or.inr (by decide)
      · rw [if_neg h3]
        by_cases h4 : strIncludes n "email" = true
        · rw [if_pos h4]
          exact Or.inr (by decide)
        · rw [if_neg h4]
          by_cases h5 : (strIncludes n "phone" && !strIncludes n "secondary") = true
          · rw [if_pos h5]
            exact Or.inr (by decide)
          · rw [if_neg h5]
            by_cases h6 : (strIncludes n "phone" && strIncludes n "secondary") = true
            · rw [if_pos h6]
              exact Or.inr (by decide)
            · rw [if_neg h6]
              by_cases h7 : strIncludes n "address" = true
              · rw [if_pos h7]
                exact Or.inr (by decide)
              · rw [if_neg h7]
                by_cases h8 : strIncludes n "city" = true
                · rw [if_pos h8]
                  exact Or.inr (by decide)
                · rw [if_neg h8]
                  by_cases h9 : strIncludes n "state" = true
                  · rw [if_pos h9]
                    exact Or.inr (by decide)
                  · rw [if_neg h9]
                    by_cases h10 : (strIncludes n "zip" || strIncludes n "postal") = true
                    · rw [if_pos h10]
                      exact Or.inr (by decide)
                    · rw [if_neg h10]
                      by_cases h11 : (strIncludes n "note" || strIncludes n "desc") = true
                      · rw [if_pos h11]
                        exact Or.inr (by decide)
                      · rw [if_neg h11]
                        by_cases h12 : (strIncludes n "type" || strIncludes n "industry") = true
                        · rw [if_pos h12]
                          exact Or.inr (by decide)
                        · rw [if_neg h12]
                          by_cases h13 : strIncludes n "status" = true
                          · rw [if_pos h13]
                            exact Or.inr (by decide)
                          · rw [if_neg h13]
                            exact Or.inl rfl

/-- C9: the rule chain only ever proposes the empty target or the name
of one of the fifteen registry fields. -/
theorem inferField_range (h : String) :
    inferField h = "" ∨ inferField h ∈ leadFields.map ValidationInfo.field :=
  inferFieldOfNormalized_range (normalizedHeader h)

/-- C10: `updateMapping` keeps the length, the order and every source
column name; it rewrites the target field to the given one exactly on
the entries whose source column equals the given one and leaves all
other entries unchanged. -/
theorem updateMapping_spec (c f : String) (l : List ColumnMapping) :
    (updateMapping c f l).length = l.length ∧
    (∀ i : Nat, ((updateMapping c f l).get? i).map ColumnMapping.csvColumn
        = (l.get? i).map ColumnMapping.csvColumn) ∧
    (∀ i : Nat, ∀ m : ColumnMapping, l.get? i = some m →
      (m.csvColumn = c →
        (updateMapping c f l).get? i = some ⟨m.csvColumn, f⟩) ∧
      (m.csvColumn ≠ c →
        (updateMapping c f l).get? i = some m)) := by
  refine ⟨by simp [updateMapping], ?_, ?_⟩
  · intro i
    rw [updateMapping, List.get?_map]
    cases hx : l.get? i with
    | none => rfl
    | some m =>
      by_cases hc : m.csvColumn = c
      · simp [hc]
      · simp [hc]
  · intro i m hm
    constructor
    · intro hc
      rw [updateMapping, List.get?_map, hm]
      simp [hc]
    · intro hc
      rw [updateMapping, List.get?_map, hm]
      simp [hc]

/-- C10, witness: editing column `A` rewrites both entries named `A`
and leaves the entry named `B` untouched. -/
theorem updateMapping_spec_witness :
    (updateMapping "A" "phone" [⟨"A", ""⟩, ⟨"B", "city"⟩, ⟨"A", "zip"⟩]).get? 0
        = some ⟨"A", "phone"⟩ ∧
    (updateMapping "A" "phone" [⟨"A", ""⟩, ⟨"B", "city"⟩, ⟨"A", "zip"⟩]).get? 1
        = some ⟨"B", "city"⟩ :=
  ⟨((updateMapping_spec "A" "phone" [⟨"A", ""⟩, ⟨"B", "city"⟩, ⟨"A", "zip"⟩]).2.2
      0 ⟨"A", ""⟩ (by decide)).1 (by decide),
   ((updateMapping_spec "A" "phone" [⟨"A", ""⟩, ⟨"B", "city"⟩, ⟨"A", "zip"⟩]).2.2
      1 ⟨"B", "city"⟩ (by decide)).2 (by decide)⟩

end LeadImporter
